import Mathlib

/-!
Verification of the collector subsystem of the app-tracker agent
(package `agent/internal/collector`): the Manager's merge and enrichment
steps (`manager.go`) and the port-discovery parsers (`port.go`).

Modelling conventions (shallow embedding of the Go source):
  * Go strings are embedded as `List Char` (`GoStr`); all inputs of interest
    are ASCII, and byte indexing in the source coincides with char indexing.
  * Go `int` and `int32` are embedded as `Int`; the conversion `int32(x)`
    is the explicit wrap `int32ofInt`.  Go `uint32` is embedded as `Nat`.
  * Fallible Go calls returning `(value, error)` become `Option`/`Except`.
  * Effectful lookups (the process table, `/proc` reads, the `ss` command)
    are passed in as explicit environment values, so every function here is
    a pure function of its inputs.
  * Struct fields that play no role in the verified logic (floating point
    telemetry, timestamps) are elided; all fields read or written by the
    merge, enrichment and parsing code are kept under their source names.
-/

namespace AppTracker

/-- Go strings, embedded as lists of characters. -/
abbrev GoStr := List Char

/-- Literal helper: a Lean string literal as a `GoStr`. -/
def gs (s : String) : GoStr := s.toList

/-- The Go conversion `int32(x)`: wrap an integer into the signed 32-bit range. -/
def int32ofInt (n : Int) : Int := (n + 2 ^ 31) % 2 ^ 32 - 2 ^ 31

/-- SystemInfo (types.go): host-wide summary.  Numeric telemetry fields are
elided; the merge logic treats the record opaquely. -/
structure SystemInfo where
  Hostname : GoStr
  OS : GoStr
  KernelVersion : GoStr
  Uptime : Nat
deriving DecidableEq

/-- ProcessInfo (types.go): fields used by merge and enrichment. -/
structure ProcessInfo where
  PID : Int
  PPID : Int
  Name : GoStr
  Cmdline : GoStr
  Exe : GoStr
  Username : GoStr
  ContainerID : GoStr
  ContainerName : GoStr
  PodName : GoStr
  PodNamespace : GoStr
  SystemdUnit : GoStr
deriving DecidableEq

/-- PortInfo (types.go). -/
structure PortInfo where
  Port : Nat
  Protocol : GoStr
  Address : GoStr
  PID : Int
  ProcessName : GoStr
  Cmdline : GoStr
  Username : GoStr
  Exe : GoStr
  State : GoStr
  ContainerID : GoStr
  ContainerName : GoStr
  ContainerImage : GoStr
  PodName : GoStr
  PodNamespace : GoStr
  SystemdUnit : GoStr
deriving DecidableEq

/-- ContainerInfo (types.go): fields used by merge and enrichment.
`Pid` is a Go `int`. -/
structure ContainerInfo where
  ID : GoStr
  Name : GoStr
  Image : GoStr
  Pid : Int
  PodName : GoStr
  PodNamespace : GoStr
deriving DecidableEq

/-- SystemdUnitInfo (types.go).  `MainPID` is a Go `uint32`. -/
structure SystemdUnitInfo where
  Name : GoStr
  Description : GoStr
  MainPID : Nat
deriving DecidableEq

/-- KubernetesPodInfo (types.go): identifying fields. -/
structure KubernetesPodInfo where
  Name : GoStr
  Namespace : GoStr
  UID : GoStr
deriving DecidableEq

/-- Metric (types.go): the float value is elided; the merge logic only
concatenates metric slices. -/
structure Metric where
  Name : GoStr
  Labels : List (GoStr × GoStr)
deriving DecidableEq

/-- CollectionResult (types.go): one collector's partial snapshot.  Go nil
slices and empty slices behave identically under `append`, so slices are
plain lists; `System` is a nullable pointer, hence an `Option`. -/
structure CollectionResult where
  Processes : List ProcessInfo := []
  Ports : List PortInfo := []
  System : Option SystemInfo := none
  SystemdUnits : List SystemdUnitInfo := []
  Containers : List ContainerInfo := []
  Pods : List KubernetesPodInfo := []
  Metrics : List Metric := []
deriving DecidableEq

/-- AggregatedData (manager.go): the merged snapshot. -/
structure AggregatedData where
  Processes : List ProcessInfo := []
  Ports : List PortInfo := []
  System : Option SystemInfo := none
  SystemdUnits : List SystemdUnitInfo := []
  Containers : List ContainerInfo := []
  Pods : List KubernetesPodInfo := []
  Metrics : List Metric := []
deriving DecidableEq

/-- One iteration of the aggregation loop in `Manager.collect`
(manager.go, the `for result := range results` body): slices are appended;
a non-nil `System` overwrites the accumulator's `System`. -/
def mergeStep (data : AggregatedData) (result : CollectionResult) : AggregatedData :=
  { Processes := data.Processes ++ result.Processes
    Ports := data.Ports ++ result.Ports
    System := match result.System with
      | some s => some s
      | none => data.System
    SystemdUnits := data.SystemdUnits ++ result.SystemdUnits
    Containers := data.Containers ++ result.Containers
    Pods := data.Pods ++ result.Pods
    Metrics := data.Metrics ++ result.Metrics }

/-- Folding function of the aggregation loop: an erroring collector delivers
no result on the results channel (modelled `none`), and a nil result pointer
is skipped by the `if result == nil` guard; both contribute nothing. -/
def mergeFold (data : AggregatedData) (outcome : Option CollectionResult) : AggregatedData :=
  match outcome with
  | none => data
  | some r => mergeStep data r

/-- The merge phase of `Manager.collect` (manager.go): starting from the
fresh empty `AggregatedData`, fold every collector outcome in the order the
results are drained from the channel. -/
def mergeResults (outcomes : List (Option CollectionResult)) : AggregatedData :=
  outcomes.foldl mergeFold {}

/-- Results of the collectors that succeeded this tick, in merge order. -/
def successes (outcomes : List (Option CollectionResult)) : List CollectionResult :=
  outcomes.filterMap id

/-- All non-nil `SystemInfo` values carried by successful results, in merge
order. -/
def carriedSystems (outcomes : List (Option CollectionResult)) : List SystemInfo :=
  (successes outcomes).filterMap (·.System)

/-- Lookup map `pidToContainer` of `Manager.enrichData` (manager.go):
containers with `Pid > 0` are inserted keyed by `int32(c.Pid)`; a later
insert on the same key overwrites an earlier one, as in a Go map. -/
def buildPidToContainer (containers : List ContainerInfo) : Int → Option ContainerInfo :=
  containers.foldl
    (fun m c =>
      if 0 < c.Pid then
        fun k => if k = int32ofInt c.Pid then some c else m k
      else m)
    (fun _ => none)

/-- Lookup map `pidToUnit` of `Manager.enrichData` (manager.go): units with
`MainPID > 0` are inserted keyed by `int32(unit.MainPID)`, mapping to the
unit name. -/
def buildPidToUnit (units : List SystemdUnitInfo) : Int → Option GoStr :=
  units.foldl
    (fun m u =>
      if 0 < u.MainPID then
        fun k => if k = int32ofInt u.MainPID then some u.Name else m k
      else m)
    (fun _ => none)

/-- Per-process body of the enrichment loop in `Manager.enrichData`. -/
def enrichProcess (pidToContainer : Int → Option ContainerInfo)
    (pidToUnit : Int → Option GoStr) (p : ProcessInfo) : ProcessInfo :=
  let p1 :=
    match pidToContainer p.PID with
    | some c =>
      { p with ContainerID := c.ID, ContainerName := c.Name,
               PodName := c.PodName, PodNamespace := c.PodNamespace }
    | none => p
  match pidToUnit p1.PID with
  | some u => { p1 with SystemdUnit := u }
  | none => p1

/-- Per-port body of the enrichment loop in `Manager.enrichData` (ports
additionally receive the container image). -/
def enrichPort (pidToContainer : Int → Option ContainerInfo)
    (pidToUnit : Int → Option GoStr) (port : PortInfo) : PortInfo :=
  let p1 :=
    match pidToContainer port.PID with
    | some c =>
      { port with ContainerID := c.ID, ContainerName := c.Name,
                  ContainerImage := c.Image,
                  PodName := c.PodName, PodNamespace := c.PodNamespace }
    | none => port
  match pidToUnit p1.PID with
  | some u => { p1 with SystemdUnit := u }
  | none => p1

/-- `Manager.enrichData` (manager.go): build the two pid lookup maps over the
merged containers and systemd units, then rewrite every process and port. -/
def enrichData (data : AggregatedData) : AggregatedData :=
  let pidToContainer := buildPidToContainer data.Containers
  let pidToUnit := buildPidToUnit data.SystemdUnits
  { data with
    Processes := data.Processes.map (enrichProcess pidToContainer pidToUnit)
    Ports := data.Ports.map (enrichPort pidToContainer pidToUnit) }

/-! ### Merge lemmas -/

theorem mergeFold_loop_eq (outcomes : List (Option CollectionResult)) :
    ∀ d : AggregatedData,
      outcomes.foldl mergeFold d =
        { Processes := d.Processes ++ ((successes outcomes).map (·.Processes)).flatten
          Ports := d.Ports ++ ((successes outcomes).map (·.Ports)).flatten
          System := (carriedSystems outcomes).reverse.head?.or d.System
          SystemdUnits := d.SystemdUnits ++ ((successes outcomes).map (·.SystemdUnits)).flatten
          Containers := d.Containers ++ ((successes outcomes).map (·.Containers)).flatten
          Pods := d.Pods ++ ((successes outcomes).map (·.Pods)).flatten
          Metrics := d.Metrics ++ ((successes outcomes).map (·.Metrics)).flatten } := by
  induction outcomes with
  | nil =>
    intro d
    obtain ⟨P, Po, S, SU, Cs, Pd, M⟩ := d
    simp [successes, carriedSystems]
  | cons o rest ih =>
    intro d
    cases o with
    | none =>
      simp only [List.foldl_cons, mergeFold, successes, carriedSystems,
        List.filterMap_cons, id] at ih ⊢
      exact ih d
    | some r =>
      simp only [List.foldl_cons, mergeFold, successes, carriedSystems,
        List.filterMap_cons, id] at ih ⊢
      rw [ih (mergeStep d r)]
      cases hs : r.System with
      | none =>
        simp [mergeStep, hs, List.append_assoc]
      | some s =>
        simp [mergeStep, hs, List.append_assoc, List.head?_append, Option.or_assoc]

theorem mergeResults_eq (outcomes : List (Option CollectionResult)) :
    mergeResults outcomes =
      { Processes := ((successes outcomes).map (·.Processes)).flatten
        Ports := ((successes outcomes).map (·.Ports)).flatten
        System := (carriedSystems outcomes).getLast?
        SystemdUnits := ((successes outcomes).map (·.SystemdUnits)).flatten
        Containers := ((successes outcomes).map (·.Containers)).flatten
        Pods := ((successes outcomes).map (·.Pods)).flatten
        Metrics := ((successes outcomes).map (·.Metrics)).flatten } := by
  have h := mergeFold_loop_eq outcomes {}
  simpa [mergeResults, List.head?_reverse] using h

/-! ### Claim C1 -/

/-- Concrete system summaries and partial results used to exercise the
single-system merge behaviour. -/
def sysAlpha : SystemInfo :=
  { Hostname := gs "alpha", OS := gs "linux", KernelVersion := gs "6.1", Uptime := 1 }

def sysBeta : SystemInfo :=
  { Hostname := gs "beta", OS := gs "linux", KernelVersion := gs "6.1", Uptime := 2 }

def resAlpha : CollectionResult := { System := some sysAlpha }

def resBeta : CollectionResult := { System := some sysBeta }

/-- C1 (counterexample): merging two results that both carry a non-nil
`SystemInfo` keeps the one from the second result, not the first — the
aggregation loop overwrites `data.System` on every non-nil `result.System`,
so the claimed first-wins tie-break fails at this concrete input. -/
theorem C1_first_system_counterexample :
    (mergeResults [some resAlpha, some resBeta]).System = some sysBeta ∧
      sysBeta ≠ sysAlpha := by
  constructor
  · rfl
  · decide

/-- C1 (amended): for any sequence of collector partial results in which
more than one carries a non-nil `SystemInfo`, the merged `AggregatedData`
contains exactly one `SystemInfo`, and it is the one from the last result
(in merge order) carrying a non-nil `SystemInfo`. -/
theorem C1_merged_system_is_last_carried (outcomes : List (Option CollectionResult))
    (h : 1 < (carriedSystems outcomes).length) :
    (mergeResults outcomes).System.isSome ∧
      (mergeResults outcomes).System = (carriedSystems outcomes).getLast? := by
  have he := mergeResults_eq outcomes
  refine ⟨?_, by rw [he]⟩
  rw [he]
  have hne : carriedSystems outcomes ≠ [] := by
    intro hnil
    rw [hnil] at h
    simp at h
  simp [List.getLast?_isSome, hne]

/-- C1 witness: the amended statement at a concrete input with two carriers. -/
theorem C1_merged_system_is_last_carried_witness :
    1 < (carriedSystems [some resAlpha, some resBeta]).length ∧
      (mergeResults [some resAlpha, some resBeta]).System.isSome ∧
        (mergeResults [some resAlpha, some resBeta]).System =
          (carriedSystems [some resAlpha, some resBeta]).getLast? :=
  ⟨by decide, C1_merged_system_is_last_carried [some resAlpha, some resBeta] (by decide)⟩

/-! ### Claim C3 -/

/-- C3: the merged snapshot is exactly the concatenation, in merge order, of
the slices of the collectors that succeeded this tick: every successful
collector's contribution appears unchanged and complete, and erroring
collectors (which deliver no result) contribute nothing and do not affect
the contributions of their siblings. -/
theorem C3_merge_isolation (outcomes : List (Option CollectionResult)) :
    (mergeResults outcomes).Processes = ((successes outcomes).map (·.Processes)).flatten ∧
    (mergeResults outcomes).Ports = ((successes outcomes).map (·.Ports)).flatten ∧
    (mergeResults outcomes).SystemdUnits = ((successes outcomes).map (·.SystemdUnits)).flatten ∧
    (mergeResults outcomes).Containers = ((successes outcomes).map (·.Containers)).flatten ∧
    (mergeResults outcomes).Pods = ((successes outcomes).map (·.Pods)).flatten ∧
    (mergeResults outcomes).Metrics = ((successes outcomes).map (·.Metrics)).flatten := by
  rw [mergeResults_eq outcomes]
  exact ⟨rfl, rfl, rfl, rfl, rfl, rfl⟩

/-! ### Enrichment lemmas -/

theorem int32ofInt_eq_self (n : Int) (h0 : 0 ≤ n) (h1 : n < 2 ^ 31) : int32ofInt n = n := by
  unfold int32ofInt
  omega

theorem buildPidToContainer_skip (cs : List ContainerInfo) :
    ∀ (m : Int → Option ContainerInfo) (k : Int),
      (∀ c ∈ cs, 0 < c.Pid → k ≠ int32ofInt c.Pid) →
      cs.foldl
        (fun m c =>
          if 0 < c.Pid then
            fun j => if j = int32ofInt c.Pid then some c else m j
          else m)
        m k = m k := by
  induction cs with
  | nil => intro m k _; rfl
  | cons c rest ih =>
    intro m k h
    simp only [List.foldl_cons]
    by_cases hp : 0 < c.Pid
    · rw [if_pos hp, ih _ k (fun c' hc' => h c' (List.mem_cons_of_mem _ hc'))]
      exact if_neg (h c (List.mem_cons_self _ _) hp)
    · rw [if_neg hp]
      exact ih m k (fun c' hc' => h c' (List.mem_cons_of_mem _ hc'))

theorem buildPidToContainer_hit_aux (cs : List ContainerInfo) (c : ContainerInfo)
    (hc : c ∈ cs) (hp : 0 < c.Pid)
    (hnd : cs.Pairwise (fun a b => int32ofInt a.Pid ≠ int32ofInt b.Pid)) :
    ∀ m : Int → Option ContainerInfo,
      cs.foldl
        (fun m c =>
          if 0 < c.Pid then
            fun j => if j = int32ofInt c.Pid then some c else m j
          else m)
        m (int32ofInt c.Pid) = some c := by
  induction cs with
  | nil => cases hc
  | cons a rest ih =>
    intro m
    rcases List.mem_cons.mp hc with rfl | hcr
    · simp only [List.foldl_cons, if_pos hp]
      rw [buildPidToContainer_skip rest _ _
        (fun b hb _ => (List.pairwise_cons.mp hnd).1 b hb)]
      exact if_pos rfl
    · simp only [List.foldl_cons]
      have htail := (List.pairwise_cons.mp hnd).2
      by_cases hpa : 0 < a.Pid
      · rw [if_pos hpa]
        exact ih hcr htail _
      · rw [if_neg hpa]
        exact ih hcr htail m

theorem buildPidToContainer_hit (cs : List ContainerInfo) (c : ContainerInfo)
    (hc : c ∈ cs) (hp : 0 < c.Pid)
    (hnd : cs.Pairwise (fun a b => int32ofInt a.Pid ≠ int32ofInt b.Pid)) :
    buildPidToContainer cs (int32ofInt c.Pid) = some c :=
  buildPidToContainer_hit_aux cs c hc hp hnd (fun _ => none)

theorem buildPidToUnit_skip (us : List SystemdUnitInfo) :
    ∀ (m : Int → Option GoStr) (k : Int),
      (∀ u ∈ us, 0 < u.MainPID → k ≠ int32ofInt u.MainPID) →
      us.foldl
        (fun m u =>
          if 0 < u.MainPID then
            fun j => if j = int32ofInt u.MainPID then some u.Name else m j
          else m)
        m k = m k := by
  induction us with
  | nil => intro m k _; rfl
  | cons u rest ih =>
    intro m k h
    simp only [List.foldl_cons]
    by_cases hp : 0 < u.MainPID
    · rw [if_pos hp, ih _ k (fun u' hu' => h u' (List.mem_cons_of_mem _ hu'))]
      exact if_neg (h u (List.mem_cons_self _ _) hp)
    · rw [if_neg hp]
      exact ih m k (fun u' hu' => h u' (List.mem_cons_of_mem _ hu'))

theorem buildPidToUnit_hit_aux (us : List SystemdUnitInfo) (u : SystemdUnitInfo)
    (hu : u ∈ us) (hp : 0 < u.MainPID)
    (hnd : us.Pairwise (fun a b => int32ofInt a.MainPID ≠ int32ofInt b.MainPID)) :
    ∀ m : Int → Option GoStr,
      us.foldl
        (fun m u =>
          if 0 < u.MainPID then
            fun j => if j = int32ofInt u.MainPID then some u.Name else m j
          else m)
        m (int32ofInt u.MainPID) = some u.Name := by
  induction us with
  | nil => cases hu
  | cons a rest ih =>
    intro m
    rcases List.mem_cons.mp hu with rfl | hur
    · simp only [List.foldl_cons, if_pos hp]
      rw [buildPidToUnit_skip rest _ _
        (fun b hb _ => (List.pairwise_cons.mp hnd).1 b hb)]
      exact if_pos rfl
    · simp only [List.foldl_cons]
      have htail := (List.pairwise_cons.mp hnd).2
      by_cases hpa : 0 < a.MainPID
      · rw [if_pos hpa]
        exact ih hur htail _
      · rw [if_neg hpa]
        exact ih hur htail m

theorem buildPidToUnit_hit (us : List SystemdUnitInfo) (u : SystemdUnitInfo)
    (hu : u ∈ us) (hp : 0 < u.MainPID)
    (hnd : us.Pairwise (fun a b => int32ofInt a.MainPID ≠ int32ofInt b.MainPID)) :
    buildPidToUnit us (int32ofInt u.MainPID) = some u.Name :=
  buildPidToUnit_hit_aux us u hu hp hnd (fun _ => none)

/-- Container-field projections of `enrichProcess` once the lookup results
are known. -/
theorem enrichProcess_eval (mc : Int → Option ContainerInfo) (mu : Int → Option GoStr)
    (p : ProcessInfo) :
    enrichProcess mc mu p =
      let p1 :=
        match mc p.PID with
        | some c =>
          { p with ContainerID := c.ID, ContainerName := c.Name,
                   PodName := c.PodName, PodNamespace := c.PodNamespace }
        | none => p
      match mu p.PID with
      | some u => { p1 with SystemdUnit := u }
      | none => p1 := by
  unfold enrichProcess
  cases hc : mc p.PID <;> rfl

theorem enrichPort_eval (mc : Int → Option ContainerInfo) (mu : Int → Option GoStr)
    (port : PortInfo) :
    enrichPort mc mu port =
      let p1 :=
        match mc port.PID with
        | some c =>
          { port with ContainerID := c.ID, ContainerName := c.Name,
                      ContainerImage := c.Image,
                      PodName := c.PodName, PodNamespace := c.PodNamespace }
        | none => port
      match mu port.PID with
      | some u => { p1 with SystemdUnit := u }
      | none => p1 := by
  unfold enrichPort
  cases hc : mc port.PID <;> rfl

theorem buildPidToContainer_none (cs : List ContainerInfo) (k : Int)
    (h : ∀ c ∈ cs, 0 < c.Pid → k ≠ int32ofInt c.Pid) :
    buildPidToContainer cs k = none :=
  buildPidToContainer_skip cs (fun _ => none) k h

theorem buildPidToUnit_none (us : List SystemdUnitInfo) (k : Int)
    (h : ∀ u ∈ us, 0 < u.MainPID → k ≠ int32ofInt u.MainPID) :
    buildPidToUnit us k = none :=
  buildPidToUnit_skip us (fun _ => none) k h

/-! ### Claim C4 -/

/-- C4: with the merged containers carrying positive, int32-range, pairwise
distinct main pids (as every real pid is), and likewise for the systemd
units, enrichment attaches a container's id/name/pod fields to a process or
port exactly when the entity's pid equals that container's main pid, and a
unit's name exactly when the pid equals that unit's main pid; otherwise the
corresponding fields are left as they were (empty fields stay empty).
`enrichData` applies precisely this per-entity rewrite to every merged
process and port. -/
theorem C4_enrichment_matches_main_pid (data : AggregatedData)
    (hcr : ∀ c ∈ data.Containers, 0 < c.Pid ∧ c.Pid < 2 ^ 31)
    (hur : ∀ u ∈ data.SystemdUnits, 0 < u.MainPID ∧ (u.MainPID : Int) < 2 ^ 31)
    (hcd : data.Containers.Pairwise (fun a b => a.Pid ≠ b.Pid))
    (hud : data.SystemdUnits.Pairwise (fun a b => a.MainPID ≠ b.MainPID)) :
    (enrichData data).Processes =
      data.Processes.map
        (enrichProcess (buildPidToContainer data.Containers) (buildPidToUnit data.SystemdUnits)) ∧
    (enrichData data).Ports =
      data.Ports.map
        (enrichPort (buildPidToContainer data.Containers) (buildPidToUnit data.SystemdUnits)) ∧
    (∀ p : ProcessInfo,
      (∀ c ∈ data.Containers, p.PID = c.Pid →
        (enrichProcess (buildPidToContainer data.Containers) (buildPidToUnit data.SystemdUnits) p).ContainerID = c.ID ∧
        (enrichProcess (buildPidToContainer data.Containers) (buildPidToUnit data.SystemdUnits) p).ContainerName = c.Name ∧
        (enrichProcess (buildPidToContainer data.Containers) (buildPidToUnit data.SystemdUnits) p).PodName = c.PodName ∧
        (enrichProcess (buildPidToContainer data.Containers) (buildPidToUnit data.SystemdUnits) p).PodNamespace = c.PodNamespace) ∧
      ((∀ c ∈ data.Containers, p.PID ≠ c.Pid) →
        (enrichProcess (buildPidToContainer data.Containers) (buildPidToUnit data.SystemdUnits) p).ContainerID = p.ContainerID ∧
        (enrichProcess (buildPidToContainer data.Containers) (buildPidToUnit data.SystemdUnits) p).ContainerName = p.ContainerName ∧
        (enrichProcess (buildPidToContainer data.Containers) (buildPidToUnit data.SystemdUnits) p).PodName = p.PodName ∧
        (enrichProcess (buildPidToContainer data.Containers) (buildPidToUnit data.SystemdUnits) p).PodNamespace = p.PodNamespace) ∧
      (∀ u ∈ data.SystemdUnits, p.PID = (u.MainPID : Int) →
        (enrichProcess (buildPidToContainer data.Containers) (buildPidToUnit data.SystemdUnits) p).SystemdUnit = u.Name) ∧
      ((∀ u ∈ data.SystemdUnits, p.PID ≠ (u.MainPID : Int)) →
        (enrichProcess (buildPidToContainer data.Containers) (buildPidToUnit data.SystemdUnits) p).SystemdUnit = p.SystemdUnit)) ∧
    (∀ pt : PortInfo,
      (∀ c ∈ data.Containers, pt.PID = c.Pid →
        (enrichPort (buildPidToContainer data.Containers) (buildPidToUnit data.SystemdUnits) pt).ContainerID = c.ID ∧
        (enrichPort (buildPidToContainer data.Containers) (buildPidToUnit data.SystemdUnits) pt).ContainerName = c.Name ∧
        (enrichPort (buildPidToContainer data.Containers) (buildPidToUnit data.SystemdUnits) pt).ContainerImage = c.Image ∧
        (enrichPort (buildPidToContainer data.Containers) (buildPidToUnit data.SystemdUnits) pt).PodName = c.PodName ∧
        (enrichPort (buildPidToContainer data.Containers) (buildPidToUnit data.SystemdUnits) pt).PodNamespace = c.PodNamespace) ∧
      ((∀ c ∈ data.Containers, pt.PID ≠ c.Pid) →
        (enrichPort (buildPidToContainer data.Containers) (buildPidToUnit data.SystemdUnits) pt).ContainerID = pt.ContainerID ∧
        (enrichPort (buildPidToContainer data.Containers) (buildPidToUnit data.SystemdUnits) pt).ContainerName = pt.ContainerName ∧
        (enrichPort (buildPidToContainer data.Containers) (buildPidToUnit data.SystemdUnits) pt).ContainerImage = pt.ContainerImage ∧
        (enrichPort (buildPidToContainer data.Containers) (buildPidToUnit data.SystemdUnits) pt).PodName = pt.PodName ∧
        (enrichPort (buildPidToContainer data.Containers) (buildPidToUnit data.SystemdUnits) pt).PodNamespace = pt.PodNamespace) ∧
      (∀ u ∈ data.SystemdUnits, pt.PID = (u.MainPID : Int) →
        (enrichPort (buildPidToContainer data.Containers) (buildPidToUnit data.SystemdUnits) pt).SystemdUnit = u.Name) ∧
      ((∀ u ∈ data.SystemdUnits, pt.PID ≠ (u.MainPID : Int)) →
        (enrichPort (buildPidToContainer data.Containers) (buildPidToUnit data.SystemdUnits) pt).SystemdUnit = pt.SystemdUnit)) := by
  have hnd32c : data.Containers.Pairwise (fun a b => int32ofInt a.Pid ≠ int32ofInt b.Pid) := by
    refine List.Pairwise.imp_of_mem ?_ hcd
    intro a b ha hb hab
    rw [int32ofInt_eq_self _ (le_of_lt (hcr a ha).1) (hcr a ha).2,
        int32ofInt_eq_self _ (le_of_lt (hcr b hb).1) (hcr b hb).2]
    exact hab
  have hnd32u : data.SystemdUnits.Pairwise
      (fun a b => int32ofInt a.MainPID ≠ int32ofInt b.MainPID) := by
    refine List.Pairwise.imp_of_mem ?_ hud
    intro a b ha hb hab
    rw [int32ofInt_eq_self _ (by positivity) (hur a ha).2,
        int32ofInt_eq_self _ (by positivity) (hur b hb).2]
    exact_mod_cast hab
  have hchit : ∀ (k : Int), ∀ c ∈ data.Containers, k = c.Pid →
      buildPidToContainer data.Containers k = some c := by
    intro k c hc hk
    have h32 : int32ofInt c.Pid = c.Pid :=
      int32ofInt_eq_self _ (le_of_lt (hcr c hc).1) (hcr c hc).2
    rw [hk, ← h32]
    exact buildPidToContainer_hit _ c hc (hcr c hc).1 hnd32c
  have hcmiss : ∀ (k : Int), (∀ c ∈ data.Containers, k ≠ c.Pid) →
      buildPidToContainer data.Containers k = none := by
    intro k h
    refine buildPidToContainer_none _ k (fun c hc hp => ?_)
    rw [int32ofInt_eq_self _ (le_of_lt (hcr c hc).1) (hcr c hc).2]
    exact h c hc
  have huhit : ∀ (k : Int), ∀ u ∈ data.SystemdUnits, k = (u.MainPID : Int) →
      buildPidToUnit data.SystemdUnits k = some u.Name := by
    intro k u hu hk
    have h32 : int32ofInt (u.MainPID : Int) = (u.MainPID : Int) :=
      int32ofInt_eq_self _ (by positivity) (hur u hu).2
    rw [hk, ← h32]
    exact buildPidToUnit_hit _ u hu (hur u hu).1 hnd32u
  have humiss : ∀ (k : Int), (∀ u ∈ data.SystemdUnits, k ≠ (u.MainPID : Int)) →
      buildPidToUnit data.SystemdUnits k = none := by
    intro k h
    refine buildPidToUnit_none _ k (fun u hu hp => ?_)
    rw [int32ofInt_eq_self _ (by positivity) (hur u hu).2]
    exact h u hu
  refine ⟨rfl, rfl, ?_, ?_⟩
  · intro p
    refine ⟨?_, ?_, ?_, ?_⟩
    · intro c hc hk
      rw [enrichProcess_eval, hchit p.PID c hc hk]
      cases hmu : buildPidToUnit data.SystemdUnits p.PID <;> simp [hmu]
    · intro h
      rw [enrichProcess_eval, hcmiss p.PID h]
      cases hmu : buildPidToUnit data.SystemdUnits p.PID <;> simp [hmu]
    · intro u hu hk
      rw [enrichProcess_eval, huhit p.PID u hu hk]
    · intro h
      rw [enrichProcess_eval, humiss p.PID h]
      cases hmc : buildPidToContainer data.Containers p.PID <;> simp [hmc]
  · intro pt
    refine ⟨?_, ?_, ?_, ?_⟩
    · intro c hc hk
      rw [enrichPort_eval, hchit pt.PID c hc hk]
      cases hmu : buildPidToUnit data.SystemdUnits pt.PID <;> simp [hmu]
    · intro h
      rw [enrichPort_eval, hcmiss pt.PID h]
      cases hmu : buildPidToUnit data.SystemdUnits pt.PID <;> simp [hmu]
    · intro u hu hk
      rw [enrichPort_eval, huhit pt.PID u hu hk]
    · intro h
      rw [enrichPort_eval, humiss pt.PID h]
      cases hmc : buildPidToContainer data.Containers pt.PID <;> simp [hmc]

/-- Concrete enrichment scenario: one container with main pid 100, one
systemd unit with main pid 200, and processes at pids 100, 200 and 0 with
all enrichment fields initially empty. -/
def contMain : ContainerInfo :=
  { ID := gs "abc123", Name := gs "web", Image := gs "nginx:1.25",
    Pid := 100, PodName := gs "web-pod", PodNamespace := gs "default" }

def unitMain : SystemdUnitInfo :=
  { Name := gs "sshd.service", Description := gs "ssh daemon", MainPID := 200 }

def procBlank (pid : Int) : ProcessInfo :=
  { PID := pid, PPID := 1, Name := gs "p", Cmdline := [], Exe := [],
    Username := [], ContainerID := [], ContainerName := [], PodName := [],
    PodNamespace := [], SystemdUnit := [] }

def dataScenario : AggregatedData :=
  { Processes := [procBlank 100, procBlank 200],
    Containers := [contMain], SystemdUnits := [unitMain] }

/-- C4 witness: in the concrete scenario, the pid-100 process gets exactly
the container's fields and an empty systemd unit, and the pid-200 process
gets exactly the unit name and empty container fields. -/
theorem C4_enrichment_matches_main_pid_witness :
    (enrichProcess (buildPidToContainer dataScenario.Containers)
        (buildPidToUnit dataScenario.SystemdUnits) (procBlank 100)).ContainerID = gs "abc123" ∧
    (enrichProcess (buildPidToContainer dataScenario.Containers)
        (buildPidToUnit dataScenario.SystemdUnits) (procBlank 100)).ContainerName = gs "web" ∧
    (enrichProcess (buildPidToContainer dataScenario.Containers)
        (buildPidToUnit dataScenario.SystemdUnits) (procBlank 100)).PodName = gs "web-pod" ∧
    (enrichProcess (buildPidToContainer dataScenario.Containers)
        (buildPidToUnit dataScenario.SystemdUnits) (procBlank 100)).PodNamespace = gs "default" ∧
    (enrichProcess (buildPidToContainer dataScenario.Containers)
        (buildPidToUnit dataScenario.SystemdUnits) (procBlank 100)).SystemdUnit = [] ∧
    (enrichProcess (buildPidToContainer dataScenario.Containers)
        (buildPidToUnit dataScenario.SystemdUnits) (procBlank 200)).SystemdUnit = gs "sshd.service" ∧
    (enrichProcess (buildPidToContainer dataScenario.Containers)
        (buildPidToUnit dataScenario.SystemdUnits) (procBlank 200)).ContainerID = [] ∧
    (enrichProcess (buildPidToContainer dataScenario.Containers)
        (buildPidToUnit dataScenario.SystemdUnits) (procBlank 200)).ContainerName = [] := by
  have h := C4_enrichment_matches_main_pid dataScenario
    (by decide) (by decide) (by decide) (by decide)
  have h100 := h.2.2.1 (procBlank 100)
  have h200 := h.2.2.1 (procBlank 200)
  have hc100 := h100.1 contMain (by decide) (by decide)
  have hu100 := h100.2.2.2 (by decide)
  have hu200 := h200.2.2.1 unitMain (by decide) (by decide)
  have hc200 := h200.2.1 (by decide)
  exact ⟨hc100.1, hc100.2.1, hc100.2.2.1, hc100.2.2.2, hu100, hu200, hc200.1, hc200.2.1⟩

/-! ### Claim C10 -/

theorem buildPidToContainer_filter_aux (cs : List ContainerInfo) :
    ∀ m : Int → Option ContainerInfo,
      cs.foldl
        (fun m c =>
          if 0 < c.Pid then
            fun j => if j = int32ofInt c.Pid then some c else m j
          else m)
        m =
      (cs.filter (fun c => 0 < c.Pid)).foldl
        (fun m c =>
          if 0 < c.Pid then
            fun j => if j = int32ofInt c.Pid then some c else m j
          else m)
        m := by
  induction cs with
  | nil => intro m; rfl
  | cons c rest ih =>
    intro m
    by_cases hp : 0 < c.Pid <;> simp [List.filter_cons, hp, ih]

theorem buildPidToUnit_filter_aux (us : List SystemdUnitInfo) :
    ∀ m : Int → Option GoStr,
      us.foldl
        (fun m u =>
          if 0 < u.MainPID then
            fun j => if j = int32ofInt u.MainPID then some u.Name else m j
          else m)
        m =
      (us.filter (fun u => 0 < u.MainPID)).foldl
        (fun m u =>
          if 0 < u.MainPID then
            fun j => if j = int32ofInt u.MainPID then some u.Name else m j
          else m)
        m := by
  induction us with
  | nil => intro m; rfl
  | cons u rest ih =>
    intro m
    by_cases hp : 0 < u.MainPID <;> simp [List.filter_cons, hp, ih]

/-- C10: containers with non-positive `Pid` and units with `MainPID = 0` are
excluded from the enrichment lookup maps (building the maps from the
filtered lists gives the same maps), and consequently — given main pids in
int32 range, as every real pid is — a process or port whose own pid is not
positive is returned by enrichment completely unchanged: its empty container
and systemd fields stay empty. -/
theorem C10_nonpositive_pids_unenriched (cs : List ContainerInfo)
    (us : List SystemdUnitInfo)
    (hcr : ∀ c ∈ cs, c.Pid < 2 ^ 31)
    (hur : ∀ u ∈ us, (u.MainPID : Int) < 2 ^ 31) :
    buildPidToContainer cs = buildPidToContainer (cs.filter (fun c => 0 < c.Pid)) ∧
    buildPidToUnit us = buildPidToUnit (us.filter (fun u => 0 < u.MainPID)) ∧
    (∀ p : ProcessInfo, p.PID ≤ 0 →
      enrichProcess (buildPidToContainer cs) (buildPidToUnit us) p = p) ∧
    (∀ pt : PortInfo, pt.PID ≤ 0 →
      enrichPort (buildPidToContainer cs) (buildPidToUnit us) pt = pt) := by
  have hcmiss : ∀ k : Int, k ≤ 0 → buildPidToContainer cs k = none := by
    intro k hk
    refine buildPidToContainer_none cs k (fun c hc hp => ?_)
    rw [int32ofInt_eq_self _ (le_of_lt hp) (hcr c hc)]
    omega
  have humiss : ∀ k : Int, k ≤ 0 → buildPidToUnit us k = none := by
    intro k hk
    refine buildPidToUnit_none us k (fun u hu hp => ?_)
    have : (0 : Int) < u.MainPID := by exact_mod_cast hp
    rw [int32ofInt_eq_self _ (le_of_lt this) (hur u hu)]
    omega
  refine ⟨buildPidToContainer_filter_aux cs _, buildPidToUnit_filter_aux us _, ?_, ?_⟩
  · intro p hp
    rw [enrichProcess_eval, hcmiss p.PID hp, humiss p.PID hp]
  · intro pt hpt
    rw [enrichPort_eval, hcmiss pt.PID hpt, humiss pt.PID hpt]

/-- C10 witness: with the concrete container (pid 100) and unit (pid 200),
a pid-0 process is unchanged by enrichment. -/
theorem C10_nonpositive_pids_unenriched_witness :
    enrichProcess (buildPidToContainer [contMain]) (buildPidToUnit [unitMain])
        (procBlank 0) = procBlank 0 ∧
    (enrichProcess (buildPidToContainer [contMain]) (buildPidToUnit [unitMain])
        (procBlank 0)).ContainerID = [] ∧
    (enrichProcess (buildPidToContainer [contMain]) (buildPidToUnit [unitMain])
        (procBlank 0)).SystemdUnit = [] := by
  have h := (C10_nonpositive_pids_unenriched [contMain] [unitMain]
    (by decide) (by decide)).2.2.1 (procBlank 0) (by decide)
  exact ⟨h, by rw [h]; rfl, by rw [h]; rfl⟩

/-! ### String primitives mirroring the Go standard library (port.go uses
`strings.Fields`, `strings.Split`, `strings.Index`, `strings.LastIndex`,
`strings.Trim`, `strings.HasPrefix`/`TrimPrefix` and `strconv` parsing). -/

/-- Whitespace as recognised by `strings.Fields` (`unicode.IsSpace`),
restricted to the ASCII range occurring in the parsed tables. -/
def isGoSpace (c : Char) : Bool :=
  c = ' ' || c = '\t' || c = '\n' || c = '\r' || c = '\x0b' || c = '\x0c'

/-- Worker of `goFields`, carrying the current word reversed. -/
def goFieldsGo : GoStr → GoStr → List GoStr
  | [], acc => if acc = [] then [] else [acc.reverse]
  | c :: rest, acc =>
    if isGoSpace c then
      if acc = [] then goFieldsGo rest [] else acc.reverse :: goFieldsGo rest []
    else goFieldsGo rest (c :: acc)

/-- Embedding of `strings.Fields`: maximal runs of non-space characters. -/
def goFields (s : GoStr) : List GoStr := goFieldsGo s []

/-- Embedding of `strings.Split` with a one-character separator. -/
def goSplit (sep : Char) : GoStr → List GoStr
  | [] => [[]]
  | c :: rest =>
    if c = sep then [] :: goSplit sep rest
    else
      match goSplit sep rest with
      | h :: t => (c :: h) :: t
      | [] => [[c]]

/-- Embedding of `strings.Index` for a one-character pattern. -/
def idxOf (x : Char) : GoStr → Option Nat
  | [] => none
  | c :: rest => if c = x then some 0 else (idxOf x rest).map (· + 1)

/-- Embedding of `strings.Index` for a two-character pattern (the source
only searches for the fixed patterns given as two characters here). -/
def idxOfPair (x y : Char) : GoStr → Option Nat
  | [] => none
  | [_] => none
  | c :: d :: rest =>
    if c = x ∧ d = y then some 0 else (idxOfPair x y (d :: rest)).map (· + 1)

/-- Embedding of `strings.LastIndex` for a one-character pattern. -/
def lastIdx (x : Char) (s : GoStr) : Option Nat :=
  (idxOf x s.reverse).map (fun i => s.length - 1 - i)

/-- Embedding of `strings.LastIndex` for a two-character pattern. -/
def lastIdxPair (x y : Char) (s : GoStr) : Option Nat :=
  (idxOfPair y x s.reverse).map (fun i => s.length - 2 - i)

/-- Go slicing `s[a:b]` (on the ASCII inputs at hand, byte = char). -/
def goSlice (s : GoStr) (a b : Nat) : GoStr := (s.take b).drop a

/-- Embedding of `strings.Trim` with a one-character cutset. -/
def goTrimChar (s : GoStr) (x : Char) : GoStr :=
  ((s.dropWhile (· = x)).reverse.dropWhile (· = x)).reverse

/-- Value of a hexadecimal digit character, as accepted by `strconv`. -/
def hexDigitVal? (c : Char) : Option Nat :=
  if '0' ≤ c ∧ c ≤ '9' then some (c.toNat - '0'.toNat)
  else if 'a' ≤ c ∧ c ≤ 'f' then some (c.toNat - 'a'.toNat + 10)
  else if 'A' ≤ c ∧ c ≤ 'F' then some (c.toNat - 'A'.toNat + 10)
  else none

/-- Value of a decimal digit character. -/
def decDigitVal? (c : Char) : Option Nat :=
  if '0' ≤ c ∧ c ≤ '9' then some (c.toNat - '0'.toNat) else none

/-- Digit-sequence accumulator of `strconv.ParseUint`: every character must
be a digit of the base. -/
def parseDigitsAux (f : Char → Option Nat) (base : Nat) : GoStr → Nat → Option Nat
  | [], acc => some acc
  | c :: rest, acc =>
    match f c with
    | some d => parseDigitsAux f base rest (base * acc + d)
    | none => none

/-- Unsigned digit-string value; the empty string is a syntax error. -/
def parseDigits? (f : Char → Option Nat) (base : Nat) (s : GoStr) : Option Nat :=
  if s = [] then none else parseDigitsAux f base s 0

/-- `strconv.ParseUint(s, 10, 32)` with its error checked by the caller. -/
def goParseUintDec32? (s : GoStr) : Option Nat :=
  (parseDigits? decDigitVal? 10 s).bind fun n => if n < 2 ^ 32 then some n else none

/-- `strconv.ParseUint(s, 16, 32)` with its error checked by the caller. -/
def goParseUintHex32? (s : GoStr) : Option Nat :=
  (parseDigits? hexDigitVal? 16 s).bind fun n => if n < 2 ^ 32 then some n else none

/-- `strconv.ParseUint(s, 16, 8)` with its error ignored: a syntax error
yields 0, a range error yields the clamped maximum, as in Go. -/
def goParseUintHex8Val (s : GoStr) : Nat :=
  match parseDigits? hexDigitVal? 16 s with
  | some n => if n < 2 ^ 8 then n else 2 ^ 8 - 1
  | none => 0

/-- `strconv.ParseInt(s, 10, 32)` with its error checked by the caller:
an optional sign followed by decimal digits, within the int32 range. -/
def goParseIntDec32? (s : GoStr) : Option Int :=
  match s with
  | '+' :: r =>
    (parseDigits? decDigitVal? 10 r).bind fun n =>
      if n ≤ 2 ^ 31 - 1 then some (n : Int) else none
  | '-' :: r =>
    (parseDigits? decDigitVal? 10 r).bind fun n =>
      if n ≤ 2 ^ 31 then some (-(n : Int)) else none
  | r =>
    (parseDigits? decDigitVal? 10 r).bind fun n =>
      if n ≤ 2 ^ 31 - 1 then some (n : Int) else none

/-- Value component of `strconv.ParseInt(s, 16, 32)` when the error is
ignored (`state, _ := strconv.ParseInt(fields[3], 16, 32)`): a syntax error
yields 0, a range error yields the clamped extreme of the int32 range. -/
def goParseIntHex32Val (s : GoStr) : Int :=
  match s with
  | '+' :: r =>
    match parseDigits? hexDigitVal? 16 r with
    | some n => if n ≤ 2 ^ 31 - 1 then (n : Int) else 2 ^ 31 - 1
    | none => 0
  | '-' :: r =>
    match parseDigits? hexDigitVal? 16 r with
    | some n => if n ≤ 2 ^ 31 then (-(n : Int)) else -(2 ^ 31)
    | none => 0
  | r =>
    match parseDigits? hexDigitVal? 16 r with
    | some n => if n ≤ 2 ^ 31 - 1 then (n : Int) else 2 ^ 31 - 1
    | none => 0

/-- Rendering of a nonnegative integer in decimal (`fmt.Sprintf("%d", n)`). -/
def decRepr (n : Nat) : GoStr := (Nat.repr n).toList

/-! ### Port collector (port.go) -/

/-- A fresh `&PortInfo{}` with Go zero values. -/
def emptyPortInfo : PortInfo :=
  { Port := 0, Protocol := [], Address := [], PID := 0, ProcessName := [],
    Cmdline := [], Username := [], Exe := [], State := [], ContainerID := [],
    ContainerName := [], ContainerImage := [], PodName := [],
    PodNamespace := [], SystemdUnit := [] }

/-- Host-introspection environment of the port collector: the outcomes of
the effectful lookups (`process.NewProcess` and its accessors, and
`findPIDByInode`, which returns 0 when no owner is found). -/
structure OSEnv where
  procExists : Int → Bool
  cmdlineOf : Int → Option GoStr
  usernameOf : Int → Option GoStr
  exeOf : Int → Option GoStr
  pidOfInode : GoStr → Int

/-- `PortCollector.enrichWithProcessInfo` (port.go): best-effort fill of
`Cmdline`, `Username` and `Exe` from the process table; every failure leaves
the corresponding field unchanged. -/
def enrichWithProcessInfo (env : OSEnv) (info : PortInfo) (pid : Int) : PortInfo :=
  if env.procExists pid then
    let i1 :=
      match env.cmdlineOf pid with
      | some c => { info with Cmdline := c }
      | none => info
    let i2 :=
      match env.usernameOf pid with
      | some u => { i1 with Username := u }
      | none => i1
    match env.exeOf pid with
    | some e => { i2 with Exe := e }
    | none => i2
  else info

/-- Loop over `parts[1:]` in `parseProcessInfo` (port.go): the first part
with prefix `pid=` whose remainder parses as an int32 yields the result. -/
def parsePidLoop : List GoStr → GoStr → Int × GoStr
  | [], name => (0, name)
  | part :: rest, name =>
    if (gs "pid=").isPrefixOf part then
      match goParseIntDec32? (part.drop 4) with
      | some pid => (pid, name)
      | none => parsePidLoop rest name
    else parsePidLoop rest name

/-- `parseProcessInfo` (port.go): extract pid and process name from the
annotation `users:(("name",pid=N,fd=M),...)`; only the first embedded tuple
is examined. -/
def parseProcessInfo (s : GoStr) : Int × GoStr :=
  match idxOfPair '(' '(' s with
  | none => (0, [])
  | some start =>
    match idxOf ')' (s.drop start) with
    | none => (0, [])
    | some endIdx =>
      let entry := goSlice s (start + 2) (start + endIdx)
      let parts := goSplit ',' entry
      if parts.length < 2 then (0, [])
      else
        let name := goTrimChar (parts.headD []) '"'
        parsePidLoop parts.tail name

/-- `parseAddressPort` (port.go): split an `address:port` token, handling
bracketed IPv6 (`[addr]:port`), the last colon for IPv4, and the bare `*`
wildcard. -/
def parseAddressPort (s : GoStr) : Option (GoStr × Nat) :=
  if (gs "[").isPrefixOf s then
    match lastIdxPair ']' ':' s with
    | none => none
    | some idx =>
      match goParseUintDec32? (s.drop (idx + 2)) with
      | none => none
      | some port => some (goSlice s 1 idx, port)
  else
    match lastIdx ':' s with
    | none => none
    | some lastColon =>
      match goParseUintDec32? (s.drop (lastColon + 1)) with
      | none => none
      | some port =>
        let addr := s.take lastColon
        some (if addr = gs "*" then gs "0.0.0.0" else addr, port)

/-- `PortCollector.parseSSLine` (port.go): parse one data line of the
Strategy A output; `none` is the error return (the caller skips the line). -/
def parseSSLine (env : OSEnv) (line : GoStr) : Option PortInfo :=
  let fields := goFields line
  if fields.length < 5 then none
  else
    let protoRes : Option GoStr :=
      if fields.getD 0 [] = gs "tcp" ∨ fields.getD 0 [] = gs "tcp6" then some (gs "tcp")
      else if fields.getD 0 [] = gs "udp" ∨ fields.getD 0 [] = gs "udp6" then some (gs "udp")
      else none
    match protoRes with
    | none => none
    | some proto =>
      match parseAddressPort (fields.getD 4 []) with
      | none => none
      | some ap =>
        let info :=
          { emptyPortInfo with
              Protocol := proto, State := fields.getD 1 [],
              Address := ap.1, Port := ap.2 }
        if 6 < fields.length then
          let procInfo := fields.getD 6 []
          if (gs "users:").isPrefixOf procInfo then
            let pn := parseProcessInfo procInfo
            let info := { info with PID := pn.1, ProcessName := pn.2 }
            some (if 0 < pn.1 then enrichWithProcessInfo env info pn.1 else info)
          else some info
        else some info

/-- `PortCollector.tcpStateToString` (port.go): fixed state-code table. -/
def tcpStateToString (state : Int) : GoStr :=
  if state = 1 then gs "ESTABLISHED"
  else if state = 2 then gs "SYN_SENT"
  else if state = 3 then gs "SYN_RECV"
  else if state = 4 then gs "FIN_WAIT1"
  else if state = 5 then gs "FIN_WAIT2"
  else if state = 6 then gs "TIME_WAIT"
  else if state = 7 then gs "CLOSE"
  else if state = 8 then gs "CLOSE_WAIT"
  else if state = 9 then gs "LAST_ACK"
  else if state = 10 then gs "LISTEN"
  else if state = 11 then gs "CLOSING"
  else gs "UNKNOWN"

/-- `PortCollector.parseHexAddress` (port.go): decode `HEXADDR:HEXPORT`.
The four IPv4 byte-groups are read in reverse order (the source loop sets
`octets[3-i]` from hex pair `i`, ignoring per-octet parse errors) and the
address is rendered in dotted decimal; a 32-character address is rendered as
the unspecified IPv6 address. -/
def parseHexAddress (s : GoStr) : Option (GoStr × Nat) :=
  let parts := goSplit ':' s
  if parts.length ≠ 2 then none
  else
    match goParseUintHex32? (parts.getD 1 []) with
    | none => none
    | some port =>
      let addrHex := parts.getD 0 []
      if addrHex.length = 8 then
        let o3 := goParseUintHex8Val (goSlice addrHex 0 2)
        let o2 := goParseUintHex8Val (goSlice addrHex 2 4)
        let o1 := goParseUintHex8Val (goSlice addrHex 4 6)
        let o0 := goParseUintHex8Val (goSlice addrHex 6 8)
        some (decRepr o0 ++ '.' :: decRepr o1 ++ '.' :: decRepr o2 ++ '.' :: decRepr o3, port)
      else if addrHex.length = 32 then
        some (gs "::", port)
      else none

/-- `PortCollector.parseProcNetLine` (port.go): parse one data line of a
socket table; `none` covers both the error return (short line, bad address)
and the silent `nil, nil` skip of non-listening TCP entries. -/
def parseProcNetLine (env : OSEnv) (line : GoStr) (protocol : GoStr) : Option PortInfo :=
  let fields := goFields line
  if fields.length < 10 then none
  else
    let state := goParseIntHex32Val (fields.getD 3 [])
    if protocol = gs "tcp" ∧ state ≠ 0x0A then none
    else
      match parseHexAddress (fields.getD 1 []) with
      | none => none
      | some ap =>
        let inode := fields.getD 9 []
        let pid := env.pidOfInode inode
        let info :=
          { emptyPortInfo with
              Protocol := protocol, Address := ap.1, Port := ap.2,
              PID := pid, State := tcpStateToString state }
        some (if 0 < pid then enrichWithProcessInfo env info pid else info)

/-- `PortCollector.readProcNetFile` (port.go): an open error is returned;
otherwise the header line is skipped and each remaining line that parses
contributes one entry. -/
def readProcNetFile (content : Except Unit (List GoStr)) (protocol : GoStr)
    (env : OSEnv) : Except Unit (List PortInfo) :=
  match content with
  | .error e => .error e
  | .ok lines => .ok ((lines.drop 1).filterMap (fun l => parseProcNetLine env l protocol))

/-- Contents of the four socket tables (`/proc/net/tcp`, `tcp6`, `udp`,
`udp6`), each either an open error or its list of lines. -/
structure ProcNetFiles where
  tcp : Except Unit (List GoStr)
  tcp6 : Except Unit (List GoStr)
  udp : Except Unit (List GoStr)
  udp6 : Except Unit (List GoStr)

/-- `PortCollector.collectFromProcNet` (port.go): read the four socket
tables, appending the entries of each table that opened successfully and
silently skipping those that did not; the function's only return is
`return ports, nil`. -/
def collectFromProcNet (env : OSEnv) (files : ProcNetFiles) : Except Unit (List PortInfo) :=
  let ports : List PortInfo := []
  let ports :=
    match readProcNetFile files.tcp (gs "tcp") env with
    | .ok ps => ports ++ ps
    | .error _ => ports
  let ports :=
    match readProcNetFile files.tcp6 (gs "tcp") env with
    | .ok ps => ports ++ ps
    | .error _ => ports
  let ports :=
    match readProcNetFile files.udp (gs "udp") env with
    | .ok ps => ports ++ ps
    | .error _ => ports
  let ports :=
    match readProcNetFile files.udp6 (gs "udp") env with
    | .ok ps => ports ++ ps
    | .error _ => ports
  .ok ports

/-- `PortCollector.collectWithSS` (port.go): a failure of the `ss` command
is an error; otherwise the header line is skipped and each line that parses
contributes one entry. -/
def collectWithSS (ssOutput : Except Unit (List GoStr)) (env : OSEnv) :
    Except Unit (List PortInfo) :=
  match ssOutput with
  | .error _ => .error ()
  | .ok lines => .ok ((lines.drop 1).filterMap (parseSSLine env))

/-- `PortCollector.Collect` (port.go): try Strategy A; on its failure fall
back to Strategy B; an error is returned only when the fallback itself
returns one. -/
def Collect (env : OSEnv) (ssOutput : Except Unit (List GoStr))
    (files : ProcNetFiles) : Except Unit CollectionResult :=
  match collectWithSS ssOutput env with
  | .ok ports => .ok { Ports := ports }
  | .error _ =>
    match collectFromProcNet env files with
    | .ok ports => .ok { Ports := ports }
    | .error e => .error e

/-! ### Claim C5 -/

/-- The best-effort process enrichment only writes `Cmdline`, `Username` and
`Exe`; every other field of the record is preserved. -/
theorem enrichWithProcessInfo_preserves (env : OSEnv) (info : PortInfo) (pid : Int) :
    (enrichWithProcessInfo env info pid).Protocol = info.Protocol ∧
    (enrichWithProcessInfo env info pid).State = info.State ∧
    (enrichWithProcessInfo env info pid).Address = info.Address ∧
    (enrichWithProcessInfo env info pid).Port = info.Port ∧
    (enrichWithProcessInfo env info pid).PID = info.PID ∧
    (enrichWithProcessInfo env info pid).ProcessName = info.ProcessName := by
  unfold enrichWithProcessInfo
  cases hb : env.procExists pid
  · simp
  · cases hc : env.cmdlineOf pid <;> cases hu : env.usernameOf pid <;>
      cases he : env.exeOf pid <;> simp

/-- C5: the Strategy A output line
`tcp   LISTEN 0   128   0.0.0.0:8080   0.0.0.0:*   users:(("nginx",pid=1234,fd=6))`
parses, for any host environment, to a `PortInfo` with protocol `tcp`,
state `LISTEN`, address `0.0.0.0`, port 8080, pid 1234 and process name
`nginx`. -/
theorem C5_ss_line_example (env : OSEnv) :
    ∃ p : PortInfo,
      parseSSLine env
        (gs "tcp   LISTEN 0   128   0.0.0.0:8080   0.0.0.0:*   users:((\"nginx\",pid=1234,fd=6))") =
        some p ∧
      p.Protocol = gs "tcp" ∧ p.State = gs "LISTEN" ∧ p.Address = gs "0.0.0.0" ∧
      p.Port = 8080 ∧ p.PID = 1234 ∧ p.ProcessName = gs "nginx" := by
  refine ⟨enrichWithProcessInfo env
    { emptyPortInfo with
        Protocol := gs "tcp", State := gs "LISTEN", Address := gs "0.0.0.0",
        Port := 8080, PID := 1234, ProcessName := gs "nginx" } 1234, ?_, ?_, ?_, ?_, ?_, ?_, ?_⟩
  · rfl
  · exact (enrichWithProcessInfo_preserves env _ 1234).1
  · exact (enrichWithProcessInfo_preserves env _ 1234).2.1
  · exact (enrichWithProcessInfo_preserves env _ 1234).2.2.1
  · exact (enrichWithProcessInfo_preserves env _ 1234).2.2.2.1
  · exact (enrichWithProcessInfo_preserves env _ 1234).2.2.2.2.1
  · exact (enrichWithProcessInfo_preserves env _ 1234).2.2.2.2.2

/-! ### Claim C7 -/

/-- C7: in Strategy B, a socket-table line with fewer than 10
whitespace-delimited fields is always skipped; a TCP line that produces an
entry necessarily has hex state field value 0x0A (`LISTEN`); and a UDP line
with at least 10 fields produces an entry exactly when its local-address
field decodes — independently of its state value. -/
theorem C7_procnet_line_filters :
    (∀ (env : OSEnv) (proto line : GoStr),
      (goFields line).length < 10 → parseProcNetLine env line proto = none) ∧
    (∀ (env : OSEnv) (line : GoStr) (p : PortInfo),
      parseProcNetLine env line (gs "tcp") = some p →
      goParseIntHex32Val ((goFields line).getD 3 []) = 0x0A) ∧
    (∀ (env : OSEnv) (line : GoStr), 10 ≤ (goFields line).length →
      (parseProcNetLine env line (gs "udp")).isSome =
        (parseHexAddress ((goFields line).getD 1 [])).isSome) := by
  refine ⟨?_, ?_, ?_⟩
  · intro env proto line h
    simp only [parseProcNetLine]
    rw [if_pos h]
  · intro env line p h
    by_cases h10 : (goFields line).length < 10
    · simp only [parseProcNetLine] at h
      rw [if_pos h10] at h
      exact absurd h (by simp)
    · by_cases hst : goParseIntHex32Val ((goFields line).getD 3 []) = 0x0A
      · exact hst
      · exfalso
        simp only [parseProcNetLine] at h
        rw [if_neg h10, if_pos ⟨by trivial, hst⟩] at h
        exact absurd h (by simp)
  · intro env line h10
    simp only [parseProcNetLine]
    rw [if_neg (by omega)]
    have hcond : ¬(gs "udp" = gs "tcp" ∧
        goParseIntHex32Val ((goFields line).getD 3 []) ≠ 0x0A) := by
      rintro ⟨hc, -⟩
      exact absurd hc (by decide)
    rw [if_neg hcond]
    cases hpa : parseHexAddress ((goFields line).getD 1 []) <;> simp [hpa]

/-- C7 witness: a short line is skipped; a concrete non-LISTEN TCP line (hex
state 01) yields no entry while its LISTEN variant does; a concrete UDP line
with the same non-LISTEN state still yields an entry. -/
theorem C7_procnet_line_filters_witness :
    (goFields (gs "short line")).length < 10 ∧
    parseProcNetLine
      { procExists := fun _ => false, cmdlineOf := fun _ => none,
        usernameOf := fun _ => none, exeOf := fun _ => none,
        pidOfInode := fun _ => 0 }
      (gs "short line") (gs "tcp") = none ∧
    10 ≤ (goFields (gs "   0: 0100007F:0035 00000000:0000 07 00000000:00000000 00:00000000 00000000  1000        0 999")).length ∧
    (parseProcNetLine
      { procExists := fun _ => false, cmdlineOf := fun _ => none,
        usernameOf := fun _ => none, exeOf := fun _ => none,
        pidOfInode := fun _ => 0 }
      (gs "   0: 0100007F:0035 00000000:0000 07 00000000:00000000 00:00000000 00000000  1000        0 999")
      (gs "udp")).isSome =
      (parseHexAddress ((goFields (gs "   0: 0100007F:0035 00000000:0000 07 00000000:00000000 00:00000000 00000000  1000        0 999")).getD 1 [])).isSome := by
  refine ⟨by decide, ?_, by decide, ?_⟩
  · exact (C7_procnet_line_filters.1 _ _ _ (by decide))
  · exact (C7_procnet_line_filters.2.2 _ _ (by decide))

/-! ### Claims C2 and C9 -/

/-- A host environment in which every effectful lookup fails or is empty. -/
def envNone : OSEnv :=
  { procExists := fun _ => false, cmdlineOf := fun _ => none,
    usernameOf := fun _ => none, exeOf := fun _ => none,
    pidOfInode := fun _ => 0 }

/-- Socket tables that all fail to open. -/
def filesBroken : ProcNetFiles :=
  { tcp := .error (), tcp6 := .error (), udp := .error (), udp6 := .error () }

/-- C2: `Collect` never returns an error merely because no ports were found —
when Strategy A runs and parses zero ports, or Strategy A fails and the
fallback collects zero ports, the result is `ok` with an empty list; and an
error is only possible when both strategies are broken: whenever Strategy A
succeeds the result is `ok`, and whenever the fallback's own socket-table
pass returns `ok` (whatever the `ss` outcome) the result is `ok`. -/
theorem C2_collect_empty_is_ok :
    (∀ (env : OSEnv) (files : ProcNetFiles) (lines : List GoStr),
      (lines.drop 1).filterMap (parseSSLine env) = [] →
      Collect env (.ok lines) files = .ok { Ports := [] }) ∧
    (∀ (env : OSEnv) (files : ProcNetFiles) (e : Unit),
      collectFromProcNet env files = .ok [] →
      Collect env (.error e) files = .ok { Ports := [] }) ∧
    (∀ (env : OSEnv) (ss : Except Unit (List GoStr)) (files : ProcNetFiles)
        (ports : List PortInfo),
      collectFromProcNet env files = .ok ports →
      ∃ result, Collect env ss files = .ok result) := by
  have hok : ∀ (env : OSEnv) (files : ProcNetFiles) (lines : List GoStr),
      Collect env (.ok lines) files =
        .ok { Ports := (lines.drop 1).filterMap (parseSSLine env) } :=
    fun _ _ _ => rfl
  have herr : ∀ (env : OSEnv) (files : ProcNetFiles) (e : Unit),
      Collect env (.error e) files =
        (match collectFromProcNet env files with
          | .ok ports => .ok { Ports := ports }
          | .error e2 => .error e2) :=
    fun _ _ _ => rfl
  refine ⟨?_, ?_, ?_⟩
  · intro env files lines h
    rw [hok, h]
  · intro env files e h
    rw [herr, h]
  · intro env ss files ports h
    cases ss with
    | ok lines => exact ⟨_, hok env files lines⟩
    | error e => exact ⟨{ Ports := ports }, by rw [herr, h]⟩

/-- C2 witness: with only a header line, Strategy A yields `ok` with an
empty port list; with the `ss` command failing and all four socket tables
failing to open, the fallback still yields `ok` with an empty list. -/
theorem C2_collect_empty_is_ok_witness :
    (([gs "Netid State Recv-Q Send-Q Local Peer Process"].drop 1).filterMap
        (parseSSLine envNone) = [] ∧
      Collect envNone (.ok [gs "Netid State Recv-Q Send-Q Local Peer Process"]) filesBroken =
        .ok { Ports := [] }) ∧
    (collectFromProcNet envNone filesBroken = .ok [] ∧
      Collect envNone (.error ()) filesBroken = .ok { Ports := [] }) ∧
    (∃ result, Collect envNone (.error ()) filesBroken = .ok result) :=
  ⟨⟨rfl, C2_collect_empty_is_ok.1 envNone filesBroken _ rfl⟩,
   ⟨rfl, C2_collect_empty_is_ok.2.1 envNone filesBroken () rfl⟩,
   C2_collect_empty_is_ok.2.2 envNone (.error ()) filesBroken [] rfl⟩

/-- C9: `collectFromProcNet` ends in `return ports, nil` unconditionally —
every per-file read failure is silently skipped — so once Strategy A fails,
`Collect` returns a successful (possibly empty) result with no error, even
when all four socket-table reads fail; the fallback path has no reachable
error return. -/
theorem C9_fallback_never_errors :
    (∀ (env : OSEnv) (files : ProcNetFiles),
      ∃ ports, collectFromProcNet env files = .ok ports) ∧
    (∀ (env : OSEnv) (files : ProcNetFiles) (e : Unit),
      ∃ ports, Collect env (.error e) files = .ok { Ports := ports }) := by
  have base : ∀ (env : OSEnv) (files : ProcNetFiles),
      ∃ ports, collectFromProcNet env files = .ok ports :=
    fun env files => ⟨_, rfl⟩
  refine ⟨base, ?_⟩
  intro env files e
  obtain ⟨ports, hp⟩ := base env files
  exact ⟨ports, by simp [Collect, collectWithSS, hp]⟩

/-! ### Split and digit lemmas -/

theorem goSplit_not_mem (sep : Char) (a : GoStr) (h : sep ∉ a) : goSplit sep a = [a] := by
  induction a with
  | nil => rfl
  | cons c rest ih =>
    have hc : ¬(c = sep) := fun he => h (he ▸ List.mem_cons_self _ _)
    have hr : sep ∉ rest := fun hm => h (List.mem_cons_of_mem _ hm)
    simp [goSplit, hc, ih hr]

theorem goSplit_append (sep : Char) (a b : GoStr) (h : sep ∉ a) :
    goSplit sep (a ++ sep :: b) = a :: goSplit sep b := by
  induction a with
  | nil => simp [goSplit]
  | cons c rest ih =>
    have hc : ¬(c = sep) := fun he => h (he ▸ List.mem_cons_self _ _)
    have hr : sep ∉ rest := fun hm => h (List.mem_cons_of_mem _ hm)
    simp only [List.cons_append, goSplit, hc, if_false, List.append_eq, ih hr]

theorem hexDigitVal?_lt (c : Char) (d : Nat) (h : hexDigitVal? c = some d) : d < 16 := by
  unfold hexDigitVal? at h
  split_ifs at h with h1 h2 h3
  · obtain ⟨ha, hb⟩ := h1
    injection h with h'
    have g1 : ('0' : Char).toNat ≤ c.toNat := ha
    have g2 : c.toNat ≤ ('9' : Char).toNat := hb
    have e0 : ('0' : Char).toNat = 48 := by decide
    have e9 : ('9' : Char).toNat = 57 := by decide
    omega
  · obtain ⟨ha, hb⟩ := h2
    injection h with h'
    have g1 : ('a' : Char).toNat ≤ c.toNat := ha
    have g2 : c.toNat ≤ ('f' : Char).toNat := hb
    have e0 : ('a' : Char).toNat = 97 := by decide
    have e9 : ('f' : Char).toNat = 102 := by decide
    omega
  · obtain ⟨ha, hb⟩ := h3
    injection h with h'
    have g1 : ('A' : Char).toNat ≤ c.toNat := ha
    have g2 : c.toNat ≤ ('F' : Char).toNat := hb
    have e0 : ('A' : Char).toNat = 65 := by decide
    have e9 : ('F' : Char).toNat = 70 := by decide
    omega

theorem hexDigitVal?_ne_colon (c : Char) (h : (hexDigitVal? c).isSome) : c ≠ ':' := by
  rintro rfl
  exact absurd h (by decide)

theorem parseDigitsAux_some (f : Char → Option Nat) (base : Nat) (ds : GoStr)
    (h : ∀ c ∈ ds, (f c).isSome) :
    ∀ acc, parseDigitsAux f base ds acc =
      some (ds.foldl (fun a c => base * a + (f c).getD 0) acc) := by
  induction ds with
  | nil => intro acc; rfl
  | cons c rest ih =>
    intro acc
    obtain ⟨d, hd⟩ := Option.isSome_iff_exists.mp (h c (List.mem_cons_self _ _))
    simp [parseDigitsAux, hd, List.foldl_cons,
      ih (fun c' h' => h c' (List.mem_cons_of_mem _ h'))]

theorem goParseUintHex8Val_pair (c d : Char)
    (hc : (hexDigitVal? c).isSome) (hd : (hexDigitVal? d).isSome) :
    goParseUintHex8Val [c, d] =
      16 * (hexDigitVal? c).getD 0 + (hexDigitVal? d).getD 0 := by
  obtain ⟨vc, hvc⟩ := Option.isSome_iff_exists.mp hc
  obtain ⟨vd, hvd⟩ := Option.isSome_iff_exists.mp hd
  have hltc := hexDigitVal?_lt c vc hvc
  have hltd := hexDigitVal?_lt d vd hvd
  have haux := parseDigitsAux_some hexDigitVal? 16 [c, d]
    (by
      intro x hx
      rcases List.mem_cons.mp hx with rfl | hx2
      · exact hc
      · rcases List.mem_cons.mp hx2 with rfl | hx3
        · exact hd
        · cases hx3) 0
  unfold goParseUintHex8Val parseDigits?
  rw [if_neg (by simp), haux]
  simp only [List.foldl_cons, List.foldl_nil, hvc, hvd, Option.getD_some]
  rw [if_pos (by omega)]
  omega

/-! ### Claim C6 -/

/-- C6: Strategy B hex decoding reads the four byte-groups of a 32-bit local
address in reverse order and renders them in dotted decimal, decoding the
port from hex — the concrete field `0100007F:1F90` decodes to `127.0.0.1`
and port 8080; in general an 8-hex-digit address with byte-group values
b0 b1 b2 b3 (in input order) is rendered `b3.b2.b1.b0`, and any
32-hex-character (128-bit) address is rendered as the unspecified address
`::`. -/
theorem C6_hex_decode :
    parseHexAddress (gs "0100007F:1F90") = some (gs "127.0.0.1", 8080) ∧
    (∀ (h0 h1 h2 h3 h4 h5 h6 h7 : Char) (portHex : GoStr) (port : Nat),
      (∀ c ∈ [h0, h1, h2, h3, h4, h5, h6, h7], (hexDigitVal? c).isSome) →
      goParseUintHex32? portHex = some port → ':' ∉ portHex →
      parseHexAddress ([h0, h1, h2, h3, h4, h5, h6, h7] ++ ':' :: portHex) =
        some
          (decRepr (16 * (hexDigitVal? h6).getD 0 + (hexDigitVal? h7).getD 0) ++ '.' ::
            decRepr (16 * (hexDigitVal? h4).getD 0 + (hexDigitVal? h5).getD 0) ++ '.' ::
            decRepr (16 * (hexDigitVal? h2).getD 0 + (hexDigitVal? h3).getD 0) ++ '.' ::
            decRepr (16 * (hexDigitVal? h0).getD 0 + (hexDigitVal? h1).getD 0), port)) ∧
    (∀ (addrHex portHex : GoStr) (port : Nat),
      addrHex.length = 32 → (∀ c ∈ addrHex, (hexDigitVal? c).isSome) →
      goParseUintHex32? portHex = some port → ':' ∉ portHex →
      parseHexAddress (addrHex ++ ':' :: portHex) = some (gs "::", port)) := by
  refine ⟨by decide, ?_, ?_⟩
  · intro h0 h1 h2 h3 h4 h5 h6 h7 portHex port hhex hport hcolon
    have hnc : ':' ∉ [h0, h1, h2, h3, h4, h5, h6, h7] := by
      intro hm
      exact hexDigitVal?_ne_colon _ (hhex _ hm) rfl
    have hsplit := goSplit_append ':' [h0, h1, h2, h3, h4, h5, h6, h7] portHex hnc
    rw [goSplit_not_mem ':' portHex hcolon] at hsplit
    simp only [parseHexAddress, hsplit]
    rw [if_neg (by simp)]
    simp only [List.getD_cons_succ, List.getD_cons_zero, hport]
    rw [if_pos (by simp)]
    have e01 : goSlice [h0, h1, h2, h3, h4, h5, h6, h7] 0 2 = [h0, h1] := rfl
    have e23 : goSlice [h0, h1, h2, h3, h4, h5, h6, h7] 2 4 = [h2, h3] := rfl
    have e45 : goSlice [h0, h1, h2, h3, h4, h5, h6, h7] 4 6 = [h4, h5] := rfl
    have e67 : goSlice [h0, h1, h2, h3, h4, h5, h6, h7] 6 8 = [h6, h7] := rfl
    rw [e01, e23, e45, e67,
      goParseUintHex8Val_pair h0 h1 (hhex _ (by simp)) (hhex _ (by simp)),
      goParseUintHex8Val_pair h2 h3 (hhex _ (by simp)) (hhex _ (by simp)),
      goParseUintHex8Val_pair h4 h5 (hhex _ (by simp)) (hhex _ (by simp)),
      goParseUintHex8Val_pair h6 h7 (hhex _ (by simp)) (hhex _ (by simp))]
  · intro addrHex portHex port h32 hhex hport hcolon
    have hnc : ':' ∉ addrHex := fun hm => hexDigitVal?_ne_colon _ (hhex _ hm) rfl
    have hsplit := goSplit_append ':' addrHex portHex hnc
    rw [goSplit_not_mem ':' portHex hcolon] at hsplit
    simp only [parseHexAddress, hsplit]
    rw [if_neg (by simp)]
    simp only [List.getD_cons_succ, List.getD_cons_zero, hport]
    rw [if_neg (by omega), if_pos h32]

/-- C6 witness: the general conjuncts at the concrete inputs `0100007F:1F90`
(IPv4 reversal) and an all-zero 32-character IPv6 address with hex port
`0016`. -/
theorem C6_hex_decode_witness :
    parseHexAddress (gs "0100007F" ++ ':' :: gs "1F90") =
      some
        (decRepr (16 * (hexDigitVal? '7').getD 0 + (hexDigitVal? 'F').getD 0) ++ '.' ::
          decRepr (16 * (hexDigitVal? '0').getD 0 + (hexDigitVal? '0').getD 0) ++ '.' ::
          decRepr (16 * (hexDigitVal? '0').getD 0 + (hexDigitVal? '0').getD 0) ++ '.' ::
          decRepr (16 * (hexDigitVal? '0').getD 0 + (hexDigitVal? '1').getD 0), 8080) ∧
    parseHexAddress (gs "00000000000000000000000001000000" ++ ':' :: gs "0016") =
      some (gs "::", 22) :=
  ⟨C6_hex_decode.2.1 '0' '1' '0' '0' '0' '0' '7' 'F' (gs "1F90") 8080
      (by decide) (by decide) (by decide),
   C6_hex_decode.2.2 (gs "00000000000000000000000001000000") (gs "0016") 22
      (by decide) (by decide) (by decide) (by decide)⟩

/-! ### Index, slice, trim and decimal lemmas for Claim C8 -/

theorem idxOf_cons_ne (x c : Char) (l : GoStr) (h : ¬(c = x)) :
    idxOf x (c :: l) = (idxOf x l).map (· + 1) := by
  simp [idxOf, h]

theorem idxOf_head (x : Char) (l : GoStr) : idxOf x (x :: l) = some 0 := by
  simp [idxOf]

theorem idxOf_append_not_mem (x : Char) (a l : GoStr) (h : x ∉ a) :
    idxOf x (a ++ l) = (idxOf x l).map (· + a.length) := by
  induction a with
  | nil => cases h' : idxOf x l <;> simp [h']
  | cons c rest ih =>
    have hc : ¬(c = x) := fun he => h (he ▸ List.mem_cons_self _ _)
    have hr : x ∉ rest := fun hm => h (List.mem_cons_of_mem _ hm)
    rw [List.cons_append, idxOf_cons_ne x c _ hc, ih hr]
    cases h' : idxOf x l <;> simp [h'] <;> omega

theorem idxOfPair_users (t : GoStr) :
    idxOfPair '(' '(' (gs "users:((" ++ t) = some 6 := by
  have step : ∀ (c d : Char) (l : GoStr), ¬(c = '(' ∧ d = '(') →
      idxOfPair '(' '(' (c :: d :: l) = (idxOfPair '(' '(' (d :: l)).map (· + 1) := by
    intro c d l h
    simp only [idxOfPair]
    exact if_neg h
  have hlast : idxOfPair '(' '(' ('(' :: '(' :: t) = some 0 := by
    simp only [idxOfPair]
    exact if_pos (by simp)
  show idxOfPair '(' '(' ('u' :: 's' :: 'e' :: 'r' :: 's' :: ':' :: '(' :: '(' :: t) = some 6
  rw [step 'u' 's' _ (by decide), step 's' 'e' _ (by decide), step 'e' 'r' _ (by decide),
    step 'r' 's' _ (by decide), step 's' ':' _ (by decide), step ':' '(' _ (by decide), hlast]
  rfl

theorem goSlice_mid (a b c : GoStr) :
    goSlice (a ++ (b ++ c)) a.length (a.length + b.length) = b := by
  unfold goSlice
  rw [← List.append_assoc, show a.length + b.length = (a ++ b).length by simp,
    List.take_left, List.drop_left]

theorem goTrimChar_quotes (n : GoStr) (h1 : n.head? ≠ some '"') (h2 : n.getLast? ≠ some '"') :
    goTrimChar ('"' :: (n ++ ['"'])) '"' = n := by
  unfold goTrimChar
  rw [List.dropWhile_cons_of_pos (by decide)]
  cases n with
  | nil => rfl
  | cons c m =>
    have hc : ¬(c = '"') := fun he => h1 (by rw [he]; rfl)
    rw [List.cons_append, List.dropWhile_cons_of_neg (by simp [hc])]
    have hrev : (c :: (m ++ ['"'])).reverse = '"' :: (m.reverse ++ [c]) := by simp
    rw [hrev, List.dropWhile_cons_of_pos (by decide)]
    have hstop : (m.reverse ++ [c]).dropWhile (· = '"') = m.reverse ++ [c] := by
      cases hm : m.reverse with
      | nil =>
        simp only [List.nil_append]
        rw [List.dropWhile_cons_of_neg (by simp [hc])]
      | cons d mr =>
        have hd : ¬(d = '"') := by
          intro he
          apply h2
          have hlast : (c :: m).getLast? = some d := by
            rw [← List.head?_reverse]
            simp [hm]
          rw [hlast, he]
        simp only [List.cons_append]
        rw [List.dropWhile_cons_of_neg (by simp [hd])]
    rw [hstop]
    simp

theorem isPrefixOf_append_self (l t : GoStr) : l.isPrefixOf (l ++ t) = true := by
  induction l with
  | nil => simp [List.isPrefixOf]
  | cons c r ih => simp [List.isPrefixOf, ih]

/-- Numeric value of a decimal digit string (the number the string denotes). -/
def decValue (ds : GoStr) : Nat :=
  ds.foldl (fun a c => 10 * a + (decDigitVal? c).getD 0) 0

theorem goParseIntDec32?_digits (ds : GoStr) (hne : ds ≠ [])
    (hd : ∀ c ∈ ds, (decDigitVal? c).isSome) (hr : decValue ds ≤ 2 ^ 31 - 1) :
    goParseIntDec32? ds = some ((decValue ds : Nat) : Int) := by
  cases ds with
  | nil => exact absurd rfl hne
  | cons c r =>
    have hc := hd c (List.mem_cons_self _ _)
    unfold goParseIntDec32?
    split
    · rename_i r' heq
      injection heq with h1 h2
      rw [h1] at hc
      exact absurd hc (by decide)
    · rename_i r' heq
      injection heq with h1 h2
      rw [h1] at hc
      exact absurd hc (by decide)
    · unfold decValue at hr ⊢
      rw [parseDigits?, if_neg (by simp), parseDigitsAux_some decDigitVal? 10 (c :: r) hd 0,
        Option.some_bind, if_pos hr]

/-! ### Claim C8 -/

/-- C8: when the Strategy A process annotation embeds several process
tuples, only the first tuple's name and pid are taken: for every input of
the form `users:(("n1",pid=p1,fd=f1)<anything>`, where `n1` contains no
comma, no closing parenthesis and no surrounding quote characters, and `p1`
and `f1` are decimal digit strings with `p1` in int32 range, the parser
returns `(p1, n1)` — whatever further tuples (the `rest` suffix, e.g.
`,("n2",pid=p2,fd=f2))`) follow the first. -/
theorem C8_first_tuple_only (n1 ds fs rest : GoStr)
    (hn1p : ')' ∉ n1) (hn1c : ',' ∉ n1)
    (hh : n1.head? ≠ some '"') (hl : n1.getLast? ≠ some '"')
    (hds : ∀ c ∈ ds, (decDigitVal? c).isSome) (hdsne : ds ≠ [])
    (hrange : decValue ds ≤ 2 ^ 31 - 1)
    (hfs : ∀ c ∈ fs, (decDigitVal? c).isSome) :
    parseProcessInfo
      (gs "users:((\"" ++ (n1 ++ (gs "\",pid=" ++ (ds ++ (gs ",fd=" ++ (fs ++ (')' :: rest))))))) =
      ((decValue ds : Int), n1) := by
  have hs : gs "users:((\"" ++ (n1 ++ (gs "\",pid=" ++ (ds ++ (gs ",fd=" ++ (fs ++ (')' :: rest)))))) =
      gs "users:((" ++
        (((('"' :: (n1 ++ ['"'])) ++
            (',' :: ((gs "pid=" ++ ds) ++ (',' :: (gs "fd=" ++ fs))))) ++ (')' :: rest))) := by
    have e1 : gs "users:((\"" = gs "users:((" ++ ['"'] := rfl
    have e2 : gs "\",pid=" = '"' :: ',' :: gs "pid=" := rfl
    have e3 : gs ",fd=" = ',' :: gs "fd=" := rfl
    rw [e1, e2, e3]
    simp [List.append_assoc]
  rw [hs]
  have hnotin : ')' ∉ ('"' :: (n1 ++ ['"'])) ++
      (',' :: ((gs "pid=" ++ ds) ++ (',' :: (gs "fd=" ++ fs)))) := by
    intro hm
    rcases List.mem_append.mp hm with h1 | h2
    · rcases List.mem_cons.mp h1 with he | h1b
      · exact absurd he (by decide)
      · rcases List.mem_append.mp h1b with hn | hq
        · exact hn1p hn
        · exact absurd (List.mem_singleton.mp hq) (by decide)
    · rcases List.mem_cons.mp h2 with he | h2b
      · exact absurd he (by decide)
      · rcases List.mem_append.mp h2b with h3 | h4
        · rcases List.mem_append.mp h3 with hp | hdm
          · exact absurd hp (by decide)
          · exact absurd (hds _ hdm) (by decide)
        · rcases List.mem_cons.mp h4 with he2 | h5
          · exact absurd he2 (by decide)
          · rcases List.mem_append.mp h5 with hf | hfm
            · exact absurd hf (by decide)
            · exact absurd (hfs _ hfm) (by decide)
  have hidx : idxOf ')'
      ('(' :: '(' :: ((('"' :: (n1 ++ ['"'])) ++
        (',' :: ((gs "pid=" ++ ds) ++ (',' :: (gs "fd=" ++ fs))))) ++ (')' :: rest))) =
      some ((('"' :: (n1 ++ ['"'])) ++
        (',' :: ((gs "pid=" ++ ds) ++ (',' :: (gs "fd=" ++ fs))))).length + 2) := by
    rw [idxOf_cons_ne _ _ _ (by decide), idxOf_cons_ne _ _ _ (by decide),
      idxOf_append_not_mem _ _ _ hnotin, idxOf_head]
    simp only [Option.map_some', Option.some.injEq]
    omega
  have hdrop : (gs "users:((" ++
      (((('"' :: (n1 ++ ['"'])) ++
        (',' :: ((gs "pid=" ++ ds) ++ (',' :: (gs "fd=" ++ fs))))) ++ (')' :: rest)))).drop 6 =
      '(' :: '(' :: ((('"' :: (n1 ++ ['"'])) ++
        (',' :: ((gs "pid=" ++ ds) ++ (',' :: (gs "fd=" ++ fs))))) ++ (')' :: rest)) := rfl
  simp only [parseProcessInfo, idxOfPair_users, hdrop, hidx]
  have h8 : (gs "users:((").length = 8 := rfl
  have hi1 : (6 : Nat) + 2 = (gs "users:((").length := by rw [h8]
  have hi2 : 6 + ((('"' :: (n1 ++ ['"'])) ++
      (',' :: ((gs "pid=" ++ ds) ++ (',' :: (gs "fd=" ++ fs))))).length + 2) =
      (gs "users:((").length + (('"' :: (n1 ++ ['"'])) ++
      (',' :: ((gs "pid=" ++ ds) ++ (',' :: (gs "fd=" ++ fs))))).length := by
    rw [h8]
    omega
  rw [hi1, hi2, goSlice_mid]
  have hA : ',' ∉ '"' :: (n1 ++ ['"']) := by
    intro hm
    rcases List.mem_cons.mp hm with he | hb
    · exact absurd he (by decide)
    · rcases List.mem_append.mp hb with hn | hq
      · exact hn1c hn
      · exact absurd (List.mem_singleton.mp hq) (by decide)
  have hB : ',' ∉ gs "pid=" ++ ds := by
    intro hm
    rcases List.mem_append.mp hm with hp | hdm
    · exact absurd hp (by decide)
    · exact absurd (hds _ hdm) (by decide)
  have hC : ',' ∉ gs "fd=" ++ fs := by
    intro hm
    rcases List.mem_append.mp hm with hp | hfm
    · exact absurd hp (by decide)
    · exact absurd (hfs _ hfm) (by decide)
  rw [goSplit_append ',' _ _ hA, goSplit_append ',' _ _ hB, goSplit_not_mem ',' _ hC]
  rw [if_neg (by simp)]
  simp only [List.headD_cons, List.tail_cons]
  rw [goTrimChar_quotes n1 hh hl]
  simp only [parsePidLoop]
  rw [if_pos (isPrefixOf_append_self (gs "pid=") ds)]
  have hdrop4 : (gs "pid=" ++ ds).drop 4 = ds := by
    rw [show (4 : Nat) = (gs "pid=").length from rfl, List.drop_left]
  rw [hdrop4, goParseIntDec32?_digits ds hdsne hds hrange]

/-- C8 witness: a socket shared by two processes — the annotation
`users:(("n1",pid=77,fd=3),("n2",pid=88,fd=4))` parses to `(77, "n1")`,
taking only the first embedded tuple. -/
theorem C8_first_tuple_only_witness :
    parseProcessInfo
      (gs "users:((\"" ++ (gs "n1" ++ (gs "\",pid=" ++ (gs "77" ++
        (gs ",fd=" ++ (gs "3" ++ (')' :: gs ",(\"n2\",pid=88,fd=4))"))))))) =
      (77, gs "n1") := by
  have h := C8_first_tuple_only (gs "n1") (gs "77") (gs "3") (gs ",(\"n2\",pid=88,fd=4))")
    (by decide) (by decide) (by decide) (by decide) (by decide) (by decide)
    (by decide) (by decide)
  exact h.trans (by decide)

end AppTracker
